import Mathlib

/-!
Shallow embedding of the gitbackup repository's discovery adapters,
configuration-file handling and (spec-described) synchronization engine,
together with theorems settling the frozen claims about them.

Sources embedded:
* GitHub adapter: getGithubRepositories / getGithubStarredRepositories
* GitLab adapter: getGitlabRepositories
* Forgejo adapter: getForgejoRepositories / paginateForgejoRepositories
* Bitbucket adapter: getBitbucketRepositories / extractBitbucketCloneURLs
* Config file handling: handleInitConfig / defaultFileConfig
Parts of the repository not present in the source tree (the clone-URL
resolver, the string-membership helper, the discovery facade's
ignore-private filter and the synchronization engine) are modelled from
the specification, each marked in its doc comment.
-/

namespace Gitbackup

/-- The normalized Repository model (struct Repository in the Go source).
Fields Namespace and Private are renamed nspace and priv because the
source names are Lean keywords. -/
structure Repository where
  cloneURL : String
  name : String
  nspace : String
  priv : Bool
  deriving Repr, DecidableEq

/-- Modelled from the spec: the helper function `contains` is called by the
GitHub adapter and the config validator but its definition is not in the
source tree. Spec 4.2: whitelist "comparison is exact string match". -/
def contains (s : List String) (e : String) : Bool :=
  s.any (fun x => x = e)

/-- The namespace computation strings.Split(x, "/")[0] of the adapters: the
prefix of the string before the first slash (expressed over the character
list so that the kernel can evaluate it). -/
def firstPathComponent (s : String) : String :=
  ⟨s.data.takeWhile (fun c => c ≠ '/')⟩

/-- Split a character list on a separator character (strings.Split /
strings.SplitN semantics for a one-character separator; an empty input
yields one empty field). -/
def splitChar (sep : Char) : List Char → List (List Char)
  | [] => [[]]
  | c :: rest =>
    let r := splitChar sep rest
    if c = sep then [] :: r
    else (c :: r.headD []) :: r.tail

/-- Modelled from the spec: the clone URL resolver `getCloneURL` is called by
every adapter but its definition is not in the source tree. Spec 4.3:
"If preferHTTPS is true and httpsURL is non-empty, return it; else if
sshURL is non-empty, return it; else fall back to whichever of the two is
non-empty"; deterministic and pure. The global useHTTPSClone flag is
threaded through as the explicit argument preferHTTPS. -/
def getCloneURL (httpsURL sshURL : String) (preferHTTPS : Bool) : String :=
  if preferHTTPS && httpsURL != "" then httpsURL
  else if sshURL != "" then sshURL
  else if httpsURL != "" then httpsURL
  else sshURL

/-- One page of a provider listing response, as consumed by the GitHub and
GitLab pagination loops: either a transport/HTTP error, or a list of
payload items together with the response's NextPage field. -/
inductive PageResult (α : Type) where
  | err (e : String)
  | ok (repos : List α) (nextPage : Nat)

/-- The pagination loop shared (syntactically identical) by the GitHub and
GitLab adapters: fetch a page; on error return it at once; translate the
page's items (process embeds the loop body's filter plus continue plus
append); stop when NextPage is 0, otherwise set the page cursor to
NextPage. fuel bounds the recursion: the Go loop has no such bound, so a
provider that never sends the sentinel makes the Go loop run forever,
which the embedding reports as none. The first component of the result
records the sequence of page numbers actually requested. -/
def paginateLoop {α : Type} (process : α → Option Repository)
    (fetch : Nat → PageResult α) :
    Nat → Nat → List Repository → List Nat × Option (Except String (List Repository))
  | 0, _, _ => ([], none)
  | fuel + 1, page, acc =>
    match fetch page with
    | .err e => ([page], some (.error e))
    | .ok repos next =>
      let acc := acc ++ repos.filterMap process
      if next = 0 then ([page], some (.ok acc))
      else
        let rest := paginateLoop process fetch fuel next acc
        (page :: rest.1, rest.2)

/-- GitHub repository payload item (github.Repository fields the adapter
dereferences; pointer fields whose nil-ness the code checks are Option). -/
structure GithubRepo where
  fork : Bool
  fullName : String
  cloneURL : Option String
  sshURL : Option String
  name : String
  priv : Bool
  deriving Repr, DecidableEq

/-- GitHub starred payload item (github.StarredRepository wraps a Repository). -/
structure GithubStar where
  repository : GithubRepo
  deriving Repr, DecidableEq

/-- Loop body of getGithubRepositories (non-starred branch): skip forks when
ignoreFork, namespace = first component of FullName split on "/", skip
namespaces outside a non-empty whitelist, build the Repository. -/
def processGithubRepo (githubNamespaceWhitelist : List String)
    (ignoreFork preferHTTPS : Bool) (repo : GithubRepo) : Option Repository :=
  if repo.fork && ignoreFork then none
  else
    let nspace := firstPathComponent repo.fullName
    if githubNamespaceWhitelist.length > 0 && !(contains githubNamespaceWhitelist nspace)
    then none
    else
      let httpsCloneURL := repo.cloneURL.getD ""
      let sshCloneURL := repo.sshURL.getD ""
      some { cloneURL := getCloneURL httpsCloneURL sshCloneURL preferHTTPS
             name := repo.name
             nspace := nspace
             priv := repo.priv }

/-- Loop body of getGithubStarredRepositories: same translation, but no
namespace-whitelist check appears in the source. -/
def processGithubStarredRepo (ignoreFork preferHTTPS : Bool)
    (star : GithubStar) : Option Repository :=
  if star.repository.fork && ignoreFork then none
  else
    let nspace := firstPathComponent star.repository.fullName
    let httpsCloneURL := star.repository.cloneURL.getD ""
    let sshCloneURL := star.repository.sshURL.getD ""
    some { cloneURL := getCloneURL httpsCloneURL sshCloneURL preferHTTPS
           name := star.repository.name
           nspace := nspace
           priv := star.repository.priv }

/-- getGithubStarredRepositories: paginated ListStarred starting from the
zero-valued ListOptions page. -/
def getGithubStarredRepositories (fetchStarred : Nat → PageResult GithubStar)
    (ignoreFork preferHTTPS : Bool) (fuel : Nat) :
    List Nat × Option (Except String (List Repository)) :=
  paginateLoop (processGithubStarredRepo ignoreFork preferHTTPS) fetchStarred fuel 0 []

/-- getGithubRepositories: the "starred" repo type dispatches to the starred
listing (dropping the whitelist argument, as in the source); every other
repo type runs the paginated Repositories.List loop from the zero-valued
ListOptions page. -/
def getGithubRepositories (fetch : Nat → PageResult GithubRepo)
    (fetchStarred : Nat → PageResult GithubStar)
    (githubRepoType : String) (githubNamespaceWhitelist : List String)
    (ignoreFork preferHTTPS : Bool) (fuel : Nat) :
    List Nat × Option (Except String (List Repository)) :=
  if githubRepoType = "starred" then
    getGithubStarredRepositories fetchStarred ignoreFork preferHTTPS fuel
  else
    paginateLoop (processGithubRepo githubNamespaceWhitelist ignoreFork preferHTTPS)
      fetch fuel 0 []

/-- GitLab project payload item (gitlab.Project fields the adapter reads;
ForkedFromProject is a pointer whose nil-ness the code checks, so it is an
Option, carrying an opaque project id). -/
structure GitlabProject where
  forkedFromProject : Option Nat
  pathWithNamespace : String
  webURL : String
  sshURLToRepo : String
  name : String
  visibility : String
  deriving Repr, DecidableEq

/-- The gitlab.ListProjectsOptions value built by getGitlabRepositories
before its loop (owned/membership/starred booleans and the optional
visibility filter). -/
structure GitlabListOptions where
  owned : Bool
  membership : Bool
  starred : Bool
  visibility : Option String
  deriving Repr, DecidableEq

/-- The option-building switches at the top of getGitlabRepositories: the
membership type sets the corresponding booleans ("all" sets all three);
a visibility other than "all" is mapped to a provider visibility value,
with "internal" and "default" both falling through to internal. -/
def buildGitlabListOptions (gitlabProjectVisibility gitlabProjectMembershipType : String) :
    GitlabListOptions :=
  let base : GitlabListOptions :=
    match gitlabProjectMembershipType with
    | "owner" => { owned := true, membership := false, starred := false, visibility := none }
    | "member" => { owned := false, membership := true, starred := false, visibility := none }
    | "starred" => { owned := false, membership := false, starred := true, visibility := none }
    | "all" => { owned := true, membership := true, starred := true, visibility := none }
    | _ => { owned := false, membership := false, starred := false, visibility := none }
  if gitlabProjectVisibility != "all" then
    let visibility : String :=
      match gitlabProjectVisibility with
      | "public" => "public"
      | "private" => "private"
      | "internal" => "internal"
      | "default" => "internal"
      | _ => ""
    { base with visibility := some visibility }
  else base

/-- Loop body of getGitlabRepositories: skip projects with a non-nil
ForkedFromProject when ignoreFork, namespace = first component of
PathWithNamespace split on "/", clone URL from WebURL and SSHURLToRepo,
private exactly when the reported visibility is "private". -/
def processGitlabProject (ignoreFork preferHTTPS : Bool)
    (repo : GitlabProject) : Option Repository :=
  if repo.forkedFromProject.isSome && ignoreFork then none
  else
    let nspace := firstPathComponent repo.pathWithNamespace
    let cloneURL := getCloneURL repo.webURL repo.sshURLToRepo preferHTTPS
    some { cloneURL := cloneURL
           name := repo.name
           nspace := nspace
           priv := repo.visibility = "private" }

/-- getGitlabRepositories: builds the list options, then runs the paginated
Projects.ListProjects loop from the zero-valued ListOptions page. -/
def getGitlabRepositories (fetch : GitlabListOptions → Nat → PageResult GitlabProject)
    (gitlabProjectVisibility gitlabProjectMembershipType : String)
    (ignoreFork preferHTTPS : Bool) (fuel : Nat) :
    List Nat × Option (Except String (List Repository)) :=
  let options := buildGitlabListOptions gitlabProjectVisibility gitlabProjectMembershipType
  paginateLoop (processGitlabProject ignoreFork preferHTTPS) (fetch options) fuel 0 []

/-- Forgejo repository payload item (forgejo.Repository fields the adapter
reads). -/
structure ForgejoRepo where
  cloneURL : String
  sshURL : String
  name : String
  ownerUserName : String
  priv : Bool
  deriving Repr, DecidableEq

/-- One fetch outcome for the Forgejo pagination loop: error, or items plus
the response, which may itself be nil (none) or carry a NextPage value. -/
inductive ForgejoPageResult where
  | err (e : String)
  | ok (repos : List ForgejoRepo) (resp : Option Nat)

/-- Loop body of paginateForgejoRepositories: unconditional translation of
every item (no filters in this adapter). -/
def processForgejoRepo (preferHTTPS : Bool) (repo : ForgejoRepo) : Repository :=
  { cloneURL := getCloneURL repo.cloneURL repo.sshURL preferHTTPS
    name := repo.name
    nspace := repo.ownerUserName
    priv := repo.priv }

/-- The recursive loop of paginateForgejoRepositories: fetch a page; on
error return it at once; append the translated items; stop when the
response is nil or its NextPage is 0, otherwise set the page cursor to
NextPage. fuel and the page trace play the same role as in paginateLoop. -/
def forgejoPaginate (preferHTTPS : Bool) (fetch : Nat → ForgejoPageResult) :
    Nat → Nat → List Repository → List Nat × Option (Except String (List Repository))
  | 0, _, _ => ([], none)
  | fuel + 1, page, acc =>
    match fetch page with
    | .err e => ([page], some (.error e))
    | .ok repos resp =>
      let acc := acc ++ repos.map (processForgejoRepo preferHTTPS)
      match resp with
      | none => ([page], some (.ok acc))
      | some next =>
        if next = 0 then ([page], some (.ok acc))
        else
          let rest := forgejoPaginate preferHTTPS fetch fuel next acc
          (page :: rest.1, rest.2)

/-- paginateForgejoRepositories: the loop above starting at page 1 with an
empty accumulator. -/
def paginateForgejoRepositories (preferHTTPS : Bool) (fetch : Nat → ForgejoPageResult)
    (fuel : Nat) : List Nat × Option (Except String (List Repository)) :=
  forgejoPaginate preferHTTPS fetch fuel 1 []

/-- Forgejo user value returned by GetMyUserInfo. -/
structure ForgejoUser where
  userName : String
  id : Nat
  deriving Repr, DecidableEq

/-- The Forgejo client operations getForgejoRepositories invokes:
GetMyUserInfo, SearchRepos (starred by a user id, per page) and
ListMyRepos (per page). -/
structure ForgejoClient where
  getMyUserInfo : Except String ForgejoUser
  searchRepos : Nat → Nat → ForgejoPageResult
  listMyRepos : Nat → ForgejoPageResult

/-- Outcome of an adapter call, distinguishing normal return of a value or
error from process termination via log.Fatalf (which never returns). -/
inductive AdapterOutcome where
  | fatal (msg : String)
  | done (result : Except String (List Repository))
  deriving Repr

/-- getForgejoRepositories: the "starred" branch first fetches the user info
and on error calls log.Fatalf (process termination), then paginates
SearchRepos for that user id, wrapping a pagination error; the "user" and
empty branches paginate ListMyRepos, wrapping a pagination error; any
other repo type is an unknown-repo-type error. none models fuel
exhaustion of the underlying unbounded loop. -/
def getForgejoRepositories (client : ForgejoClient) (forgejoRepoType : String)
    (preferHTTPS : Bool) (fuel : Nat) : Option AdapterOutcome :=
  if forgejoRepoType = "starred" then
    match client.getMyUserInfo with
    | .error e => some (.fatal ("Error fetching user info from forgejo: " ++ e))
    | .ok user =>
      match (paginateForgejoRepositories preferHTTPS (client.searchRepos user.id) fuel).2 with
      | none => none
      | some (.error e) =>
        some (.done (.error ("fetching starred repositories from forgejo: " ++ e)))
      | some (.ok repos) => some (.done (.ok repos))
  else if forgejoRepoType = "user" ∨ forgejoRepoType = "" then
    match (paginateForgejoRepositories preferHTTPS client.listMyRepos fuel).2 with
    | none => none
    | some (.error e) =>
      some (.done (.error ("fetching user repositories from forgejo: " ++ e)))
    | some (.ok repos) => some (.done (.ok repos))
  else some (.done (.error ("unknown repo type: " ++ forgejoRepoType)))

/-- One clone link entry of a Bitbucket repository payload: the source
iterates links["clone"], skipping entries that are not maps (none here),
and reads the name and href of the rest. -/
structure BitbucketCloneLink where
  name : String
  href : String
  deriving Repr, DecidableEq

/-- The links field of a Bitbucket repository payload: either links["clone"]
is absent or not a list (noClone), or it is a list of entries, each a map
(some) or not (none). -/
inductive BitbucketLinks where
  | noClone
  | clone (entries : List (Option BitbucketCloneLink))
  deriving Repr, DecidableEq

/-- Bitbucket repository payload item. -/
structure BitbucketRepo where
  fullName : String
  links : BitbucketLinks
  slug : String
  isPrivate : Bool
  deriving Repr, DecidableEq

/-- Bitbucket workspace payload item. -/
structure BitbucketWorkspace where
  slug : String
  deriving Repr, DecidableEq

/-- The Bitbucket client operations getBitbucketRepositories invokes:
Workspaces.List and Repositories.ListForAccount for an owner slug. -/
structure BitbucketClient where
  workspacesList : Except String (List BitbucketWorkspace)
  reposForAccount : String → Except String (List BitbucketRepo)

/-- extractBitbucketCloneURLs: walk the clone link entries, skipping
non-maps; an entry named "https" sets the https URL, one named "ssh" sets
the ssh URL (later entries win); both default to "". -/
def extractBitbucketCloneURLs (links : BitbucketLinks) : String × String :=
  match links with
  | .noClone => ("", "")
  | .clone entries =>
    entries.foldl
      (fun acc entry =>
        match entry with
        | none => acc
        | some l =>
          let acc1 := if l.name = "https" then (l.href, acc.2) else acc
          if l.name = "ssh" then (acc1.1, l.href) else acc1)
      ("", "")

/-- Translation of one Bitbucket repository payload item: namespace = first
component of Full_name split on "/", clone URL from the extracted link
pair, name = slug, private = Is_private. -/
def processBitbucketRepo (preferHTTPS : Bool) (repo : BitbucketRepo) : Repository :=
  let nspace := firstPathComponent repo.fullName
  let urls := extractBitbucketCloneURLs repo.links
  { cloneURL := getCloneURL urls.1 urls.2 preferHTTPS
    name := repo.slug
    nspace := nspace
    priv := repo.isPrivate }

/-- The per-workspace loop of getBitbucketRepositories: for each workspace,
list its repositories, aborting with the error if the listing call fails,
and append the translated items. -/
def bitbucketCollect (preferHTTPS : Bool)
    (reposForAccount : String → Except String (List BitbucketRepo)) :
    List BitbucketWorkspace → List Repository → Except String (List Repository)
  | [], acc => .ok acc
  | w :: ws, acc =>
    match reposForAccount w.slug with
    | .error e => .error e
    | .ok items =>
      bitbucketCollect preferHTTPS reposForAccount ws
        (acc ++ items.map (processBitbucketRepo preferHTTPS))

/-- getBitbucketRepositories: list the workspaces, aborting with the error
if that fails, then run the per-workspace listing loop. -/
def getBitbucketRepositories (client : BitbucketClient) (preferHTTPS : Bool) :
    Except String (List Repository) :=
  match client.workspacesList with
  | .error e => .error e
  | .ok workspaces => bitbucketCollect preferHTTPS client.reposForAccount workspaces []

/-- MaxConcurrentClones is the upper limit of the maximum number of
concurrent git clones (const in main.go). -/
def MaxConcurrentClones : Nat := 20

/-- Modelled from the spec: the discovery facade's ignore-private filter is
not in the source tree (only the adapters are). Spec 4.2: "Applies
ignore-private: drops repositories with private == true". -/
def applyIgnorePrivate (ignorePrivate : Bool) (repos : List Repository) : List Repository :=
  if ignorePrivate then repos.filter (fun r => !r.priv) else repos

/-- The operation the synchronization engine chooses for one repository. -/
inductive SyncOp where
  | clone
  | fetch
  deriving Repr, DecidableEq

/-- Modelled from the spec: target path computation of the synchronization
engine (spec 4.4), which is not in the source tree:
backupRoot/service/namespace/name, with a ".git" suffix in bare mode. -/
def targetPath (backupRoot service : String) (bare : Bool) (r : Repository) : String :=
  backupRoot ++ "/" ++ service ++ "/" ++ r.nspace ++ "/" ++ r.name ++
    (if bare then ".git" else "")

/-- Aggregate outcome of a synchronization run: the operation chosen per
repository (in input order), the resulting set of local repository paths,
and the summary counts (spec 4.4). -/
structure SyncOutcome where
  ops : List (Repository × SyncOp)
  fs : List String
  succeeded : Nat
  failures : List Repository
  deriving Repr, DecidableEq

/-- Modelled from the spec: the synchronization engine (spec 4.4), which is
not in the source tree. fs is the set of already-populated local target
paths; path computes a repository's target path; gitOk abstracts the
external git tool's exit status for the operation on one repository. A
path that exists is updated in place (fetch, no re-clone, no removal); a
missing path is cloned and, when the tool succeeds, added; one item's
failure is recorded and does not stop the rest of the run. -/
def syncRun (path : Repository → String) (gitOk : Repository → Bool) :
    List String → List Repository → SyncOutcome
  | fs, [] => { ops := [], fs := fs, succeeded := 0, failures := [] }
  | fs, r :: rest =>
    if fs.contains (path r) then
      let out := syncRun path gitOk fs rest
      { out with
        ops := (r, SyncOp.fetch) :: out.ops
        succeeded := (if gitOk r then 1 else 0) + out.succeeded
        failures := (if gitOk r then [] else [r]) ++ out.failures }
    else if gitOk r then
      let out := syncRun path gitOk (path r :: fs) rest
      { out with
        ops := (r, SyncOp.clone) :: out.ops
        succeeded := 1 + out.succeeded }
    else
      let out := syncRun path gitOk fs rest
      { out with
        ops := (r, SyncOp.clone) :: out.ops
        failures := r :: out.failures }

/-- State of the synchronization engine's worker pool: repositories not yet
dispatched, number of in-flight clone/update operations, and number of
completed operations. -/
structure PoolState where
  queued : List Repository
  inFlight : Nat
  completed : Nat
  deriving Repr, DecidableEq

/-- Modelled from the spec: the worker-pool step relation of the
synchronization engine (spec 4.4 and 5), which is not in the source tree
(only the MaxConcurrentClones ceiling is). A queued repository may start
only while strictly fewer than maxClones operations are in flight; an
in-flight operation may finish at any time. -/
inductive PoolStep (maxClones : Nat) : PoolState → PoolState → Prop
  | start (s : PoolState) (r : Repository) (rest : List Repository) :
      s.queued = r :: rest → s.inFlight < maxClones →
      PoolStep maxClones s { queued := rest, inFlight := s.inFlight + 1, completed := s.completed }
  | finish (s : PoolState) :
      0 < s.inFlight →
      PoolStep maxClones s { queued := s.queued, inFlight := s.inFlight - 1, completed := s.completed + 1 }

/-- Reachability in the worker-pool step relation. -/
inductive PoolReachable (maxClones : Nat) (init : PoolState) : PoolState → Prop
  | refl : PoolReachable maxClones init init
  | step {s t : PoolState} : PoolReachable maxClones init s → PoolStep maxClones s t →
      PoolReachable maxClones init t

/-- Initial pool state for a run over a repository list: everything queued,
nothing in flight or completed. -/
def initPool (repos : List Repository) : PoolState :=
  { queued := repos, inFlight := 0, completed := 0 }

/-- github section of the YAML config file (struct githubConfig). -/
structure GithubFileConfig where
  repoType : String
  namespaceWhitelist : List String
  deriving Repr, DecidableEq

/-- gitlab section of the YAML config file (struct gitlabConfig). -/
structure GitlabFileConfig where
  projectVisibility : String
  projectMembershipType : String
  deriving Repr, DecidableEq

/-- forgejo section of the YAML config file (struct forgejoConfig). -/
structure ForgejoFileConfig where
  repoType : String
  deriving Repr, DecidableEq

/-- The YAML configuration file structure (struct fileConfig). -/
structure FileConfig where
  service : String
  gitHostURL : String
  backupDir : String
  ignorePrivate : Bool
  ignoreFork : Bool
  useHTTPSClone : Bool
  bare : Bool
  github : GithubFileConfig
  gitlab : GitlabFileConfig
  forgejo : ForgejoFileConfig
  deriving Repr, DecidableEq

/-- defaultFileConfig: a fileConfig with the same defaults as the CLI flags. -/
def defaultFileConfig : FileConfig :=
  { service := "github"
    gitHostURL := ""
    backupDir := ""
    ignorePrivate := false
    ignoreFork := false
    useHTTPSClone := false
    bare := false
    github := { repoType := "all", namespaceWhitelist := [] }
    gitlab := { projectVisibility := "internal", projectMembershipType := "all" }
    forgejo := { repoType := "user" } }

/-- Contents of one file in the filesystem model: a YAML-marshalled config
(yaml.Marshal modelled as an injective constructor) or arbitrary other
data. -/
inductive FileData where
  | yamlConfig (cfg : FileConfig)
  | other (s : String)
  deriving Repr, DecidableEq

/-- Filesystem model for the config-file handlers: the files (path with
contents) and the directories known to exist. -/
structure FS where
  files : List (String × FileData)
  dirs : List String
  deriving Repr, DecidableEq

/-- os.Stat success on a path in the filesystem model. -/
def fileExists (fs : FS) (p : String) : Bool :=
  fs.files.any (fun kv => kv.1 = p)

/-- filepath.Dir on slash-separated paths: everything before the last "/",
or "." for a bare file name (path-cleaning subtleties of the Go function
are not modelled). -/
def filepathDir (p : String) : String :=
  let parts := (splitChar '/' p.data).map (fun l => String.mk l)
  if parts.length ≤ 1 then "." else String.intercalate "/" parts.dropLast

/-- resolveConfigPath: a non-empty configPath is returned as-is, otherwise
the OS-specific default path is used; defaultPath stands for the
defaultConfigPath() call, whose os.UserConfigDir lookup can fail. -/
def resolveConfigPath (configPath : String) (defaultPath : Except String String) :
    Except String String :=
  if configPath != "" then .ok configPath else defaultPath

/-- handleInitConfig: resolve the path; if a file already exists there,
return an "already exists" error and leave the filesystem unchanged;
otherwise create the parent directory (os.MkdirAll, modelled as recording
the directory) and write the default config (os.WriteFile) at the path. -/
def handleInitConfig (fs : FS) (configPath : String)
    (defaultPath : Except String String) : Except String Unit × FS :=
  match resolveConfigPath configPath defaultPath with
  | .error e => (.error e, fs)
  | .ok path =>
    if fileExists fs path then (.error (path ++ " already exists"), fs)
    else
      let dir := filepathDir path
      let fs1 : FS := { files := fs.files, dirs := dir :: fs.dirs }
      let fs2 : FS := { files := (path, FileData.yamlConfig defaultFileConfig) :: fs1.files
                        dirs := fs1.dirs }
      (.ok (), fs2)

/-! Helper lemmas shared by the claim theorems. -/

/-- Members of a successful pagination result are either carried in from the
accumulator or are the image of some payload item under the loop body. -/
theorem paginateLoop_mem {α : Type} (process : α → Option Repository)
    (fetch : Nat → PageResult α) :
    ∀ (fuel page : Nat) (acc : List Repository) (tr : List Nat) (out : List Repository),
      paginateLoop process fetch fuel page acc = (tr, some (.ok out)) →
      ∀ r ∈ out, r ∈ acc ∨ ∃ a, process a = some r := by
  intro fuel
  induction fuel with
  | zero =>
    intro page acc tr out h r hr
    simp [paginateLoop] at h
  | succ n ih =>
    intro page acc tr out h r hr
    rw [paginateLoop] at h
    cases hf : fetch page with
    | err e => rw [hf] at h; simp at h
    | ok repos next =>
      rw [hf] at h
      by_cases hn : next = 0
      · simp only [hn, if_pos rfl] at h
        have hout : acc ++ repos.filterMap process = out := by
          have := congrArg Prod.snd h
          simpa using this
        rw [← hout] at hr
        rcases List.mem_append.mp hr with hl | hrj
        · exact Or.inl hl
        · rcases List.mem_filterMap.mp hrj with ⟨a, _, ha⟩
          exact Or.inr ⟨a, ha⟩
      · simp only [if_neg hn] at h
        have h2 : paginateLoop process fetch n next (acc ++ repos.filterMap process) =
            (tr.tail, some (.ok out)) := by
          have hsnd := congrArg Prod.snd h
          have hfst := congrArg Prod.fst h
          simp at hsnd hfst
          cases hp : paginateLoop process fetch n next (acc ++ repos.filterMap process) with
          | mk a b =>
            rw [hp] at hsnd hfst
            simp at hsnd hfst
            rw [← hfst]
            simp [hsnd]
        rcases ih next (acc ++ repos.filterMap process) tr.tail out h2 r hr with hl | hx
        · rcases List.mem_append.mp hl with hl2 | hrj
          · exact Or.inl hl2
          · rcases List.mem_filterMap.mp hrj with ⟨a, _, ha⟩
            exact Or.inr ⟨a, ha⟩
        · exact Or.inr hx

/-- A repository produced by the GitHub non-starred loop body passes the
namespace whitelist whenever the whitelist is non-empty. -/
theorem processGithubRepo_whitelist (wl : List String) (ignoreFork preferHTTPS : Bool)
    (a : GithubRepo) (r : Repository)
    (h : processGithubRepo wl ignoreFork preferHTTPS a = some r) (hne : wl ≠ []) :
    contains wl r.nspace = true := by
  simp only [processGithubRepo] at h
  by_cases h1 : (a.fork && ignoreFork) = true
  · rw [if_pos h1] at h
    cases h
  · rw [if_neg h1] at h
    by_cases h2 :
        (decide (wl.length > 0) && !contains wl (firstPathComponent a.fullName)) = true
    · rw [if_pos h2] at h
      cases h
    · rw [if_neg h2] at h
      have hr := Option.some.inj h
      subst hr
      simp only [Bool.and_eq_true, decide_eq_true_eq, Bool.not_eq_true', not_and] at h2
      show contains wl (firstPathComponent a.fullName) = true
      cases hc : contains wl (firstPathComponent a.fullName) with
      | false => exact absurd hc (h2 (List.length_pos.mpr hne))
      | true => rfl

/-- The private flag computed by the GitLab loop body is exactly the
comparison of the reported visibility with "private". -/
theorem processGitlabProject_priv (ignoreFork preferHTTPS : Bool)
    (p : GitlabProject) (r : Repository)
    (h : processGitlabProject ignoreFork preferHTTPS p = some r) :
    (r.priv = true ↔ p.visibility = "private") := by
  simp only [processGitlabProject] at h
  by_cases h1 : (p.forkedFromProject.isSome && ignoreFork) = true
  · rw [if_pos h1] at h
    cases h
  · rw [if_neg h1] at h
    have hr := Option.some.inj h
    subst hr
    show decide (p.visibility = "private") = true ↔ p.visibility = "private"
    exact decide_eq_true_iff

/-- C5: The clone URL resolver is a pure, deterministic function of its
inputs: with preferHTTPS set and a non-empty HTTPS URL it returns the
HTTPS URL regardless of the SSH URL; otherwise a non-empty SSH URL is
returned; with an empty SSH URL it falls back to the HTTPS URL (the
remaining non-empty candidate, or empty when both are). -/
theorem cloneURLResolver :
    (∀ httpsURL sshURL : String, httpsURL ≠ "" →
      getCloneURL httpsURL sshURL true = httpsURL) ∧
    (∀ (httpsURL sshURL : String) (preferHTTPS : Bool),
      ¬(preferHTTPS = true ∧ httpsURL ≠ "") → sshURL ≠ "" →
      getCloneURL httpsURL sshURL preferHTTPS = sshURL) ∧
    (∀ (httpsURL : String) (preferHTTPS : Bool),
      getCloneURL httpsURL "" preferHTTPS = httpsURL) := by
  refine ⟨?_, ?_, ?_⟩
  · intro https ssh h
    simp [getCloneURL, h]
  · intro https ssh pH hnot hssh
    have hcond : (pH && (https != "")) = false := by
      cases pH with
      | false => simp
      | true =>
        have hh : https = "" := by
          by_contra hc
          exact hnot ⟨rfl, hc⟩
        subst hh
        simp
    simp [getCloneURL, hcond, hssh]
  · intro https pH
    by_cases hh : https = ""
    · subst hh
      cases pH <;> simp [getCloneURL]
    · cases pH <;> simp [getCloneURL, hh]

/-- Witness for C5 at concrete URLs. -/
theorem cloneURLResolver_w :
    getCloneURL "https://h/r.git" "git@h:r.git" true = "https://h/r.git" ∧
    getCloneURL "https://h/r.git" "git@h:r.git" false = "git@h:r.git" ∧
    getCloneURL "https://h/r.git" "" false = "https://h/r.git" :=
  ⟨cloneURLResolver.1 "https://h/r.git" "git@h:r.git" (by decide),
   cloneURLResolver.2.1 "https://h/r.git" "git@h:r.git" false (by simp) (by decide),
   cloneURLResolver.2.2 "https://h/r.git" false⟩

/-- C10: A repository produced by the GitLab adapter is private exactly when
the provider-reported visibility string equals "private"; a project with
visibility "internal" yields private = false and is therefore kept by the
ignore-private filter; and every repository in a successful listing
output comes from a payload item with that exact correspondence. -/
theorem gitlabPrivateIffVisibility :
    (∀ (ignoreFork preferHTTPS : Bool) (p : GitlabProject) (r : Repository),
      processGitlabProject ignoreFork preferHTTPS p = some r →
      (r.priv = true ↔ p.visibility = "private")) ∧
    (∀ (ignoreFork preferHTTPS : Bool) (p : GitlabProject) (r : Repository),
      p.visibility = "internal" →
      processGitlabProject ignoreFork preferHTTPS p = some r →
      r.priv = false ∧ applyIgnorePrivate true [r] = [r]) ∧
    (∀ (fetch : GitlabListOptions → Nat → PageResult GitlabProject)
       (vis mem : String) (ignoreFork preferHTTPS : Bool) (fuel : Nat)
       (tr : List Nat) (out : List Repository),
      getGitlabRepositories fetch vis mem ignoreFork preferHTTPS fuel = (tr, some (.ok out)) →
      ∀ r ∈ out, ∃ p : GitlabProject,
        processGitlabProject ignoreFork preferHTTPS p = some r ∧
        (r.priv = true ↔ p.visibility = "private")) := by
  refine ⟨?_, ?_, ?_⟩
  · intro ifork pH p r h
    exact processGitlabProject_priv ifork pH p r h
  · intro ifork pH p r hvis h
    have hiff := processGitlabProject_priv ifork pH p r h
    have hpriv : r.priv = false := by
      by_contra hc
      have : p.visibility = "private" := hiff.mp (by simpa using hc)
      rw [hvis] at this
      exact absurd this (by decide)
    refine ⟨hpriv, ?_⟩
    simp [applyIgnorePrivate, hpriv]
  · intro fetch vis mem ifork pH fuel tr out h r hr
    have := paginateLoop_mem (processGitlabProject ifork pH)
      (fetch (buildGitlabListOptions vis mem)) fuel 0 [] tr out h r hr
    rcases this with hl | ⟨p, hp⟩
    · exact absurd hl (by simp)
    · exact ⟨p, hp, processGitlabProject_priv ifork pH p r hp⟩

/-- GitLab payload item used by the C10 witness. -/
def c10Project : GitlabProject :=
  { forkedFromProject := none
    pathWithNamespace := "acme/lib"
    webURL := "https://g/acme/lib"
    sshURLToRepo := "git@g:acme/lib.git"
    name := "lib"
    visibility := "internal" }

/-- Repository the GitLab loop body produces from c10Project. -/
def c10Repo : Repository :=
  { cloneURL := "git@g:acme/lib.git"
    name := "lib"
    nspace := "acme"
    priv := false }

/-- Witness for C10: an internal-visibility project yields private = false
and survives the ignore-private filter. -/
theorem gitlabPrivateIffVisibility_w :
    c10Repo.priv = false ∧ applyIgnorePrivate true [c10Repo] = [c10Repo] :=
  gitlabPrivateIffVisibility.2.1 false false c10Project c10Repo rfl (by decide)

/-- Starred GitHub payload item used by the C1 counterexample: a repository
owned by "bob". -/
def c1Star : GithubStar :=
  ⟨{ fork := false
     fullName := "bob/tool"
     cloneURL := some "https://h/bob/tool.git"
     sshURL := some "git@h:bob/tool.git"
     name := "tool"
     priv := false }⟩

/-- Starred fetch returning the single c1Star page for the C1 counterexample. -/
def c1FetchStarred : Nat → PageResult GithubStar := fun _ => .ok [c1Star] 0

/-- Non-starred fetch (never reached) for the C1 counterexample. -/
def c1Fetch : Nat → PageResult GithubRepo := fun _ => .err "unused"

/-- C1 counterexample: with the non-empty whitelist ["alice"] and the
starred repo-type selector, the GitHub listing returns a repository whose
namespace "bob" is not in the whitelist — the starred branch never
consults the whitelist. -/
theorem whitelistStarredBypass_cex :
    (getGithubRepositories c1Fetch c1FetchStarred "starred" ["alice"] false false 1).2 =
      some (.ok [{ cloneURL := "git@h:bob/tool.git", name := "tool",
                   nspace := "bob", priv := false }]) ∧
    contains ["alice"] "bob" = false :=
  ⟨rfl, by decide⟩

/-- C1 (amended): for every non-starred GitHub repo-type selector and every
non-empty namespace whitelist, the GitHub listing never returns a
repository whose namespace is not an exact string match of a whitelist
entry; the starred selector bypasses the whitelist, and the whitelist is
a GitHub-only option never passed to the other adapters. -/
theorem whitelistNonStarred :
    ∀ (fetch : Nat → PageResult GithubRepo) (fetchStarred : Nat → PageResult GithubStar)
      (githubRepoType : String) (wl : List String) (ignoreFork preferHTTPS : Bool)
      (fuel : Nat) (tr : List Nat) (out : List Repository),
      githubRepoType ≠ "starred" → wl ≠ [] →
      getGithubRepositories fetch fetchStarred githubRepoType wl ignoreFork preferHTTPS fuel
        = (tr, some (.ok out)) →
      ∀ r ∈ out, contains wl r.nspace = true := by
  intro fetch fstar rt wl ifork pH fuel tr out hrt hwl h r hr
  rw [getGithubRepositories, if_neg hrt] at h
  rcases paginateLoop_mem (processGithubRepo wl ifork pH) fetch fuel 0 [] tr out h r hr with
    hl | ⟨a, ha⟩
  · exact absurd hl (by simp)
  · exact processGithubRepo_whitelist wl ifork pH a r ha hwl

/-- GitHub payload item in namespace "alice" for the C1 witness. -/
def c1wRepo : GithubRepo :=
  { fork := false
    fullName := "alice/app"
    cloneURL := some "https://h/alice/app.git"
    sshURL := some "git@h:alice/app.git"
    name := "app"
    priv := false }

/-- Fetch returning the single c1wRepo page for the C1 witness. -/
def c1wFetch : Nat → PageResult GithubRepo := fun _ => .ok [c1wRepo] 0

/-- Starred fetch (never reached) for the C1 witness. -/
def c1wStarFetch : Nat → PageResult GithubStar := fun _ => .err "unused"

/-- Repository the GitHub loop body produces from c1wRepo. -/
def c1wOut : Repository :=
  { cloneURL := "git@h:alice/app.git"
    name := "app"
    nspace := "alice"
    priv := false }

/-- Witness for the amended C1 at a concrete non-starred listing. -/
theorem whitelistNonStarred_w : contains ["alice"] c1wOut.nspace = true :=
  whitelistNonStarred c1wFetch c1wStarFetch "all" ["alice"] false false 1 [0] [c1wOut]
    (by decide) (by decide) rfl c1wOut (by simp)

/-- A repository produced by the GitHub non-starred loop body under
ignoreFork comes from a non-fork payload item. -/
theorem processGithubRepo_notFork (wl : List String) (preferHTTPS : Bool)
    (a : GithubRepo) (r : Repository)
    (h : processGithubRepo wl true preferHTTPS a = some r) : a.fork = false := by
  cases hf : a.fork with
  | false => rfl
  | true =>
    rw [processGithubRepo, hf] at h
    simp at h

/-- A repository produced by the GitHub starred loop body under ignoreFork
comes from a non-fork payload item. -/
theorem processGithubStarredRepo_notFork (preferHTTPS : Bool)
    (s : GithubStar) (r : Repository)
    (h : processGithubStarredRepo true preferHTTPS s = some r) :
    s.repository.fork = false := by
  cases hf : s.repository.fork with
  | false => rfl
  | true =>
    rw [processGithubStarredRepo, hf] at h
    simp at h

/-- A repository produced by the GitLab loop body under ignoreFork comes
from a payload item with a nil ForkedFromProject. -/
theorem processGitlabProject_notFork (preferHTTPS : Bool)
    (p : GitlabProject) (r : Repository)
    (h : processGitlabProject true preferHTTPS p = some r) :
    p.forkedFromProject.isSome = false := by
  cases hf : p.forkedFromProject.isSome with
  | false => rfl
  | true =>
    rw [processGitlabProject, hf] at h
    simp at h

/-- C2: when ignore-fork is set, a payload item marked as a fork (GitHub
fork flag, GitLab non-nil forked-from-project) never reaches the
Repository model in any loop body, and every repository in a successful
GitHub or GitLab listing output comes from a non-fork payload item. -/
theorem inlineForkFilter :
    (∀ (wl : List String) (preferHTTPS : Bool) (a : GithubRepo),
      a.fork = true → processGithubRepo wl true preferHTTPS a = none) ∧
    (∀ (preferHTTPS : Bool) (s : GithubStar),
      s.repository.fork = true → processGithubStarredRepo true preferHTTPS s = none) ∧
    (∀ (preferHTTPS : Bool) (p : GitlabProject),
      p.forkedFromProject.isSome = true → processGitlabProject true preferHTTPS p = none) ∧
    (∀ (fetch : Nat → PageResult GithubRepo) (fetchStarred : Nat → PageResult GithubStar)
       (githubRepoType : String) (wl : List String) (preferHTTPS : Bool) (fuel : Nat)
       (tr : List Nat) (out : List Repository),
      getGithubRepositories fetch fetchStarred githubRepoType wl true preferHTTPS fuel
        = (tr, some (.ok out)) →
      ∀ r ∈ out,
        (∃ a : GithubRepo, a.fork = false ∧
          processGithubRepo wl true preferHTTPS a = some r) ∨
        (∃ s : GithubStar, s.repository.fork = false ∧
          processGithubStarredRepo true preferHTTPS s = some r)) ∧
    (∀ (fetch : GitlabListOptions → Nat → PageResult GitlabProject) (vis mem : String)
       (preferHTTPS : Bool) (fuel : Nat) (tr : List Nat) (out : List Repository),
      getGitlabRepositories fetch vis mem true preferHTTPS fuel = (tr, some (.ok out)) →
      ∀ r ∈ out, ∃ p : GitlabProject, p.forkedFromProject.isSome = false ∧
        processGitlabProject true preferHTTPS p = some r) := by
  refine ⟨?_, ?_, ?_, ?_, ?_⟩
  · intro wl pH a hf
    rw [processGithubRepo, hf]
    simp
  · intro pH s hf
    rw [processGithubStarredRepo, hf]
    simp
  · intro pH p hf
    rw [processGitlabProject, hf]
    simp
  · intro fetch fstar rt wl pH fuel tr out h r hr
    rw [getGithubRepositories] at h
    by_cases hrt : rt = "starred"
    · rw [if_pos hrt] at h
      rcases paginateLoop_mem (processGithubStarredRepo true pH) fstar fuel 0 [] tr out h
          r hr with hl | ⟨s, hs⟩
      · exact absurd hl (by simp)
      · exact Or.inr ⟨s, processGithubStarredRepo_notFork pH s r hs, hs⟩
    · rw [if_neg hrt] at h
      rcases paginateLoop_mem (processGithubRepo wl true pH) fetch fuel 0 [] tr out h
          r hr with hl | ⟨a, ha⟩
      · exact absurd hl (by simp)
      · exact Or.inl ⟨a, processGithubRepo_notFork wl pH a r ha, ha⟩
  · intro fetch vis mem pH fuel tr out h r hr
    rcases paginateLoop_mem (processGitlabProject true pH)
        (fetch (buildGitlabListOptions vis mem)) fuel 0 [] tr out h r hr with hl | ⟨p, hp⟩
    · exact absurd hl (by simp)
    · exact ⟨p, processGitlabProject_notFork pH p r hp, hp⟩

/-- Fork-flagged GitHub payload item for the C2 witness. -/
def c2ghRepo : GithubRepo :=
  { fork := true
    fullName := "alice/forked"
    cloneURL := some "https://h/alice/forked.git"
    sshURL := some "git@h:alice/forked.git"
    name := "forked"
    priv := false }

/-- GitLab payload item with a non-nil forked-from-project for the C2
witness. -/
def c2glProject : GitlabProject :=
  { forkedFromProject := some 7
    pathWithNamespace := "alice/forked"
    webURL := "https://g/alice/forked"
    sshURLToRepo := "git@g:alice/forked.git"
    name := "forked"
    visibility := "public" }

/-- Witness for C2: concrete fork payload items are dropped by the GitHub
and GitLab loop bodies when ignore-fork is set. -/
theorem inlineForkFilter_w :
    processGithubRepo [] true false c2ghRepo = none ∧
    processGitlabProject true false c2glProject = none :=
  ⟨inlineForkFilter.1 [] false c2ghRepo rfl,
   inlineForkFilter.2.2.1 false c2glProject rfl⟩

/-- Public repository of the C6 example scenario. -/
def c6Api : Repository :=
  { cloneURL := "git@h:acme/api.git", name := "api", nspace := "acme", priv := false }

/-- Private repository of the C6 example scenario. -/
def c6Secrets : Repository :=
  { cloneURL := "git@h:acme/secrets.git", name := "secrets", nspace := "acme", priv := true }

/-- C6: with ignore-private set, every private repository is excluded from
the discovery output; in the example scenario with one public and one
private repository under the same namespace, the filtered set is just the
public one and a run over an empty backup root creates exactly one local
repository with one success and zero failures. -/
theorem ignorePrivateExcludes :
    (∀ (repos : List Repository) (r : Repository), r.priv = true →
      r ∉ applyIgnorePrivate true repos) ∧
    (applyIgnorePrivate true [c6Api, c6Secrets] = [c6Api] ∧
      syncRun (targetPath "backup" "github" false) (fun _ => true) []
        (applyIgnorePrivate true [c6Api, c6Secrets]) =
        { ops := [(c6Api, SyncOp.clone)]
          fs := ["backup/github/acme/api"]
          succeeded := 1
          failures := [] }) := by
  refine ⟨?_, ?_, ?_⟩
  · intro repos r h hmem
    rw [applyIgnorePrivate, if_pos rfl] at hmem
    have := (List.mem_filter.mp hmem).2
    rw [h] at this
    simp at this
  · rfl
  · rfl

/-- Witness for C6: the concrete private repository of the scenario is
excluded by the ignore-private filter. -/
theorem ignorePrivateExcludes_w :
    c6Secrets ∉ applyIgnorePrivate true [c6Api, c6Secrets] :=
  ignorePrivateExcludes.1 [c6Api, c6Secrets] c6Secrets rfl

/-- C7: in every state reachable by the worker-pool step relation from the
initial state of a run, the number of in-flight clone/update operations
never exceeds the ceiling, for every ceiling and every input repository
list; the configured default ceiling is 20. -/
theorem poolCeilingRespected :
    (∀ (maxClones : Nat) (repos : List Repository) (s : PoolState),
      PoolReachable maxClones (initPool repos) s → s.inFlight ≤ maxClones) ∧
    MaxConcurrentClones = 20 := by
  constructor
  · intro maxC repos s h
    induction h with
    | refl => simp [initPool]
    | step hr hs ih =>
      cases hs with
      | start r rest hq hlt => exact hlt
      | finish hpos => exact le_trans (Nat.sub_le _ _) ih
  · rfl

/-- Witness for C7: the initial state of a run over an empty list is
reachable and respects the default ceiling. -/
theorem poolCeilingRespected_w : (initPool []).inFlight ≤ 20 :=
  poolCeilingRespected.1 20 [] (initPool []) PoolReachable.refl

/-- A synchronization run over repositories none of whose target paths
exist yet clones every repository (in order) and adds exactly their paths
to the filesystem. -/
theorem syncRun_all_fresh (path : Repository → String) :
    ∀ (repos : List Repository) (fs : List String),
      (∀ r ∈ repos, path r ∉ fs) → (repos.map path).Nodup →
      (syncRun path (fun _ => true) fs repos).ops
        = repos.map (fun r => (r, SyncOp.clone)) ∧
      (syncRun path (fun _ => true) fs repos).fs = (repos.map path).reverse ++ fs := by
  intro repos
  induction repos with
  | nil => intro fs h hn; simp [syncRun]
  | cons r rest ih =>
    intro fs h hn
    rw [List.map_cons, List.nodup_cons] at hn
    have hnotin : path r ∉ fs := h r (by simp)
    have hcont : fs.contains (path r) = false := by simpa using hnotin
    have hrest : ∀ x ∈ rest, path x ∉ (path r :: fs) := by
      intro x hx
      simp only [List.mem_cons, not_or]
      constructor
      · intro he
        exact hn.1 (he ▸ List.mem_map_of_mem path hx)
      · exact h x (List.mem_cons_of_mem r hx)
    have hnrest : (rest.map path).Nodup := hn.2
    have hih := ih (path r :: fs) hrest hnrest
    rw [syncRun]
    simp only [hcont, Bool.false_eq_true, if_false, if_true]
    refine ⟨?_, ?_⟩
    · simp [hih.1]
    · simp [hih.2]

/-- A synchronization run over repositories all of whose target paths
already exist fetches every repository and leaves the filesystem
unchanged. -/
theorem syncRun_all_present (path : Repository → String) :
    ∀ (repos : List Repository) (fs : List String),
      (∀ r ∈ repos, path r ∈ fs) →
      (syncRun path (fun _ => true) fs repos).ops
        = repos.map (fun r => (r, SyncOp.fetch)) ∧
      (syncRun path (fun _ => true) fs repos).fs = fs := by
  intro repos
  induction repos with
  | nil => intro fs h; simp [syncRun]
  | cons r rest ih =>
    intro fs h
    have hcont : fs.contains (path r) = true := by
      simpa using h r (by simp)
    have hih := ih fs (fun x hx => h x (List.mem_cons_of_mem r hx))
    rw [syncRun]
    simp only [hcont, if_true]
    refine ⟨?_, ?_⟩
    · simp [hih.1]
    · simp [hih.2]

/-- C8: over a backup root containing none of the target paths, with
pairwise-distinct target paths and a succeeding git tool, the first run
clones every repository; re-running over the resulting root fetches every
repository and changes nothing — sync is idempotent on an
already-populated backup root. -/
theorem syncIdempotent :
    ∀ (path : Repository → String) (fs0 : List String) (repos : List Repository),
      (repos.map path).Nodup → (∀ r ∈ repos, path r ∉ fs0) →
      (syncRun path (fun _ => true) fs0 repos).ops
        = repos.map (fun r => (r, SyncOp.clone)) ∧
      (syncRun path (fun _ => true)
          (syncRun path (fun _ => true) fs0 repos).fs repos).ops
        = repos.map (fun r => (r, SyncOp.fetch)) ∧
      (syncRun path (fun _ => true)
          (syncRun path (fun _ => true) fs0 repos).fs repos).fs
        = (syncRun path (fun _ => true) fs0 repos).fs := by
  intro path fs0 repos hnodup hfresh
  have h1 := syncRun_all_fresh path repos fs0 hfresh hnodup
  have hpresent : ∀ r ∈ repos, path r ∈ (syncRun path (fun _ => true) fs0 repos).fs := by
    intro r hr
    rw [h1.2]
    exact List.mem_append_left _ (List.mem_reverse.mpr (List.mem_map_of_mem path hr))
  have h2 := syncRun_all_present path repos (syncRun path (fun _ => true) fs0 repos).fs
    hpresent
  exact ⟨h1.1, h2.1, h2.2⟩

/-- First repository of the C8 witness. -/
def c8R1 : Repository :=
  { cloneURL := "git@h:acme/api.git", name := "api", nspace := "acme", priv := false }

/-- Second repository of the C8 witness. -/
def c8R2 : Repository :=
  { cloneURL := "git@h:acme/web.git", name := "web", nspace := "acme", priv := false }

/-- Witness for C8: two concrete repositories into an empty backup root are
cloned on the first run and fetched, with an unchanged root, on the
second. -/
theorem syncIdempotent_w :
    (syncRun (targetPath "backup" "github" false) (fun _ => true) [] [c8R1, c8R2]).ops
      = [c8R1, c8R2].map (fun r => (r, SyncOp.clone)) ∧
    (syncRun (targetPath "backup" "github" false) (fun _ => true)
        (syncRun (targetPath "backup" "github" false) (fun _ => true) [] [c8R1, c8R2]).fs
        [c8R1, c8R2]).ops
      = [c8R1, c8R2].map (fun r => (r, SyncOp.fetch)) ∧
    (syncRun (targetPath "backup" "github" false) (fun _ => true)
        (syncRun (targetPath "backup" "github" false) (fun _ => true) [] [c8R1, c8R2]).fs
        [c8R1, c8R2]).fs
      = (syncRun (targetPath "backup" "github" false) (fun _ => true) [] [c8R1, c8R2]).fs :=
  syncIdempotent (targetPath "backup" "github" false) [] [c8R1, c8R2]
    (by decide) (by decide)

/-- C9: initializing the config at a resolved path where a file already
exists returns an "already exists" error and leaves the filesystem (hence
the existing file's contents) unchanged; at a path where no file exists
it records the parent directory and writes exactly the default config,
whose values are the CLI flag defaults (service github, github repo_type
all, gitlab project_visibility internal). -/
theorem initConfigNoOverwrite :
    (∀ (fs : FS) (configPath : String) (dp : Except String String) (p : String),
      resolveConfigPath configPath dp = .ok p → fileExists fs p = true →
      handleInitConfig fs configPath dp = (.error (p ++ " already exists"), fs)) ∧
    (∀ (fs : FS) (configPath : String) (dp : Except String String) (p : String),
      resolveConfigPath configPath dp = .ok p → fileExists fs p = false →
      handleInitConfig fs configPath dp =
        (.ok (), { files := (p, FileData.yamlConfig defaultFileConfig) :: fs.files
                   dirs := filepathDir p :: fs.dirs })) ∧
    (defaultFileConfig.service = "github" ∧
     defaultFileConfig.github.repoType = "all" ∧
     defaultFileConfig.gitlab.projectVisibility = "internal") := by
  refine ⟨?_, ?_, rfl, rfl, rfl⟩
  · intro fs cp dp p hres hex
    unfold handleInitConfig
    rw [hres]
    simp [hex]
  · intro fs cp dp p hres hex
    unfold handleInitConfig
    rw [hres]
    simp [hex]

/-- Filesystem with an existing config file for the C9 witness. -/
def c9Fs : FS :=
  { files := [("cfg/gitbackup.yml", FileData.other "my settings")], dirs := ["cfg"] }

/-- Witness for C9: a second init at an occupied concrete path errors and
changes nothing, and an init at a fresh concrete path writes the default
config and records the parent directory. -/
theorem initConfigNoOverwrite_w :
    handleInitConfig c9Fs "cfg/gitbackup.yml" (.error "no default") =
      (.error "cfg/gitbackup.yml already exists", c9Fs) ∧
    handleInitConfig { files := [], dirs := [] } "cfg/gitbackup.yml" (.error "no default") =
      (.ok (), { files := [("cfg/gitbackup.yml", FileData.yamlConfig defaultFileConfig)]
                 dirs := ["cfg"] }) :=
  ⟨initConfigNoOverwrite.1 c9Fs "cfg/gitbackup.yml" (.error "no default")
      "cfg/gitbackup.yml" rfl (by decide),
   (initConfigNoOverwrite.2.1 { files := [], dirs := [] } "cfg/gitbackup.yml"
      (.error "no default") "cfg/gitbackup.yml" rfl (by decide)).trans rfl⟩

/-- A finite script of successful pages under fetch: starting at the given
page, each response carries the recorded items and directs the cursor to
the next recorded page (its NextPage value), and the last response
carries the sentinel NextPage 0. -/
inductive OkScript {α : Type} (fetch : Nat → PageResult α) :
    Nat → List (Nat × List α) → Prop
  | last (p : Nat) (repos : List α) :
      fetch p = .ok repos 0 → OkScript fetch p [(p, repos)]
  | step (p : Nat) (repos : List α) (next : Nat) (rest : List (Nat × List α)) :
      fetch p = .ok repos next → next ≠ 0 → OkScript fetch next rest →
      OkScript fetch p ((p, repos) :: rest)

/-- A finite prefix of successful pages under fetch followed by a failing
page: the recorded page numbers are requested in cursor order and the
last one returns the error. -/
inductive ErrPath {α : Type} (fetch : Nat → PageResult α) :
    Nat → List Nat → String → Prop
  | here (p : Nat) (e : String) : fetch p = .err e → ErrPath fetch p [p] e
  | step (p : Nat) (repos : List α) (next : Nat) (ps : List Nat) (e : String) :
      fetch p = .ok repos next → next ≠ 0 → ErrPath fetch next ps e →
      ErrPath fetch p (p :: ps) e

/-- OkScript for the Forgejo loop, whose sentinel is a nil response or a
NextPage of 0. -/
inductive FOkScript (fetch : Nat → ForgejoPageResult) :
    Nat → List (Nat × List ForgejoRepo) → Prop
  | lastNil (p : Nat) (repos : List ForgejoRepo) :
      fetch p = .ok repos none → FOkScript fetch p [(p, repos)]
  | lastZero (p : Nat) (repos : List ForgejoRepo) :
      fetch p = .ok repos (some 0) → FOkScript fetch p [(p, repos)]
  | step (p : Nat) (repos : List ForgejoRepo) (next : Nat)
      (rest : List (Nat × List ForgejoRepo)) :
      fetch p = .ok repos (some next) → next ≠ 0 → FOkScript fetch next rest →
      FOkScript fetch p ((p, repos) :: rest)

/-- ErrPath for the Forgejo loop. -/
inductive FErrPath (fetch : Nat → ForgejoPageResult) :
    Nat → List Nat → String → Prop
  | here (p : Nat) (e : String) : fetch p = .err e → FErrPath fetch p [p] e
  | step (p : Nat) (repos : List ForgejoRepo) (next : Nat) (ps : List Nat) (e : String) :
      fetch p = .ok repos (some next) → next ≠ 0 → FErrPath fetch next ps e →
      FErrPath fetch p (p :: ps) e

/-- On a finite ok-script with enough fuel, the shared pagination loop
requests exactly the script's pages in cursor order and returns the
accumulated translation of all their items. -/
theorem paginateLoop_okScript {α : Type} (process : α → Option Repository)
    (fetch : Nat → PageResult α) :
    ∀ (p : Nat) (script : List (Nat × List α)),
      OkScript fetch p script →
      ∀ (fuel : Nat) (acc : List Repository), script.length ≤ fuel →
      paginateLoop process fetch fuel p acc =
        (script.map Prod.fst,
         some (.ok (acc ++
           (script.map (fun pr => pr.2.filterMap process)).flatten))) := by
  intro p script hs
  induction hs with
  | last q repos hf =>
    intro fuel acc hlen
    cases fuel with
    | zero => simp at hlen
    | succ n =>
      rw [paginateLoop, hf]
      simp
  | step q repos next rest hf hne _ ih =>
    intro fuel acc hlen
    cases fuel with
    | zero => simp at hlen
    | succ n =>
      rw [paginateLoop, hf]
      simp only [if_neg hne]
      have := ih n (acc ++ repos.filterMap process) (by simpa using hlen)
      rw [this]
      simp

/-- On a finite error path with enough fuel, the shared pagination loop
requests exactly the recorded pages and aborts with the error. -/
theorem paginateLoop_errPath {α : Type} (process : α → Option Repository)
    (fetch : Nat → PageResult α) :
    ∀ (p : Nat) (ps : List Nat) (e : String),
      ErrPath fetch p ps e →
      ∀ (fuel : Nat) (acc : List Repository), ps.length ≤ fuel →
      paginateLoop process fetch fuel p acc = (ps, some (.error e)) := by
  intro p ps e hs
  induction hs with
  | here q e hf =>
    intro fuel acc hlen
    cases fuel with
    | zero => simp at hlen
    | succ n =>
      rw [paginateLoop, hf]
  | step q repos next rest e hf hne _ ih =>
    intro fuel acc hlen
    cases fuel with
    | zero => simp at hlen
    | succ n =>
      rw [paginateLoop, hf]
      simp only [if_neg hne]
      have := ih n (acc ++ repos.filterMap process) (by simpa using hlen)
      rw [this]

/-- Forgejo analogue of paginateLoop_okScript. -/
theorem forgejoPaginate_okScript (preferHTTPS : Bool) (fetch : Nat → ForgejoPageResult) :
    ∀ (p : Nat) (script : List (Nat × List ForgejoRepo)),
      FOkScript fetch p script →
      ∀ (fuel : Nat) (acc : List Repository), script.length ≤ fuel →
      forgejoPaginate preferHTTPS fetch fuel p acc =
        (script.map Prod.fst,
         some (.ok (acc ++
           (script.map (fun pr => pr.2.map (processForgejoRepo preferHTTPS))).flatten))) := by
  intro p script hs
  induction hs with
  | lastNil q repos hf =>
    intro fuel acc hlen
    cases fuel with
    | zero => simp at hlen
    | succ n =>
      rw [forgejoPaginate, hf]
      simp
  | lastZero q repos hf =>
    intro fuel acc hlen
    cases fuel with
    | zero => simp at hlen
    | succ n =>
      rw [forgejoPaginate, hf]
      simp
  | step q repos next rest hf hne _ ih =>
    intro fuel acc hlen
    cases fuel with
    | zero => simp at hlen
    | succ n =>
      rw [forgejoPaginate, hf]
      simp only [if_neg hne]
      have := ih n (acc ++ repos.map (processForgejoRepo preferHTTPS)) (by simpa using hlen)
      rw [this]
      simp

/-- Forgejo analogue of paginateLoop_errPath. -/
theorem forgejoPaginate_errPath (preferHTTPS : Bool) (fetch : Nat → ForgejoPageResult) :
    ∀ (p : Nat) (ps : List Nat) (e : String),
      FErrPath fetch p ps e →
      ∀ (fuel : Nat) (acc : List Repository), ps.length ≤ fuel →
      forgejoPaginate preferHTTPS fetch fuel p acc = (ps, some (.error e)) := by
  intro p ps e hs
  induction hs with
  | here q e hf =>
    intro fuel acc hlen
    cases fuel with
    | zero => simp at hlen
    | succ n =>
      rw [forgejoPaginate, hf]
  | step q repos next rest e hf hne _ ih =>
    intro fuel acc hlen
    cases fuel with
    | zero => simp at hlen
    | succ n =>
      rw [forgejoPaginate, hf]
      simp only [if_neg hne]
      have := ih n (acc ++ repos.map (processForgejoRepo preferHTTPS)) (by simpa using hlen)
      rw [this]

/-- C4: each pagination loop terminates exactly at the provider's sentinel:
for every finite page script whose last response carries the zero/absent
next-page indicator, the loop returns after requesting exactly the
script's pages, each requested page being the next-page value of the
previous response (as recorded by the script relations), and yields the
accumulated translation of the consumed pages; this covers the shared
GitHub/GitLab loop and the Forgejo loop. -/
theorem paginationSentinel :
    (∀ {α : Type} (process : α → Option Repository) (fetch : Nat → PageResult α)
       (p : Nat) (script : List (Nat × List α)) (fuel : Nat) (acc : List Repository),
       OkScript fetch p script → script.length ≤ fuel →
       paginateLoop process fetch fuel p acc =
         (script.map Prod.fst,
          some (.ok (acc ++
            (script.map (fun pr => pr.2.filterMap process)).flatten)))) ∧
    (∀ (preferHTTPS : Bool) (fetch : Nat → ForgejoPageResult)
       (p : Nat) (script : List (Nat × List ForgejoRepo)) (fuel : Nat)
       (acc : List Repository),
       FOkScript fetch p script → script.length ≤ fuel →
       forgejoPaginate preferHTTPS fetch fuel p acc =
         (script.map Prod.fst,
          some (.ok (acc ++
            (script.map (fun pr => pr.2.map (processForgejoRepo preferHTTPS))).flatten)))) := by
  constructor
  · intro α process fetch p script fuel acc hs hlen
    exact paginateLoop_okScript process fetch p script hs fuel acc hlen
  · intro pH fetch p script fuel acc hs hlen
    exact forgejoPaginate_okScript pH fetch p script hs fuel acc hlen

/-- GitHub payload item on the first page of the C4 witness script. -/
def c4Repo : GithubRepo :=
  { fork := false
    fullName := "alice/app"
    cloneURL := some "https://h/alice/app.git"
    sshURL := some "git@h:alice/app.git"
    name := "app"
    priv := false }

/-- Two-page fetch for the C4 witness: page 0 directs the cursor to page 5,
page 5 carries the sentinel. -/
def c4Fetch : Nat → PageResult GithubRepo := fun p =>
  if p = 0 then .ok [c4Repo] 5
  else if p = 5 then .ok [] 0
  else .err "unexpected page"

/-- Forgejo payload item for the C4 witness. -/
def c4fRepo : ForgejoRepo :=
  { cloneURL := "https://f/bob/lib.git"
    sshURL := "git@f:bob/lib.git"
    name := "lib"
    ownerUserName := "bob"
    priv := false }

/-- Two-page Forgejo fetch for the C4 witness: page 1 directs the cursor to
page 3, page 3 carries the sentinel. -/
def c4fFetch : Nat → ForgejoPageResult := fun p =>
  if p = 1 then .ok [c4fRepo] (some 3)
  else if p = 3 then .ok [] (some 0)
  else .err "unexpected page"

/-- Witness for C4: both loops consume exactly the two scripted pages and
return the translated items. -/
theorem paginationSentinel_w :
    paginateLoop (processGithubRepo [] false false) c4Fetch 2 0 [] =
      ([0, 5], some (.ok [{ cloneURL := "git@h:alice/app.git", name := "app",
                            nspace := "alice", priv := false }])) ∧
    forgejoPaginate false c4fFetch 2 1 [] =
      ([1, 3], some (.ok [{ cloneURL := "git@f:bob/lib.git", name := "lib",
                            nspace := "bob", priv := false }])) :=
  ⟨(paginationSentinel.1 (processGithubRepo [] false false) c4Fetch 0
      [(0, [c4Repo]), (5, [])] 2 []
      (OkScript.step 0 [c4Repo] 5 [(5, [])] rfl (by decide)
        (OkScript.last 5 [] rfl)) (by decide)).trans rfl,
   (paginationSentinel.2 false c4fFetch 1 [(1, [c4fRepo]), (3, [])] 2 []
      (FOkScript.step 1 [c4fRepo] 3 [(3, [])] rfl (by decide)
        (FOkScript.lastZero 3 [] rfl)) (by decide)).trans rfl⟩

/-- If the per-workspace repository listing fails at some workspace after
any number of successful ones, the Bitbucket collection loop aborts with
that error. -/
theorem bitbucketCollect_err (preferHTTPS : Bool)
    (reposForAccount : String → Except String (List BitbucketRepo))
    (w : BitbucketWorkspace) (ws2 : List BitbucketWorkspace) (e : String) :
    ∀ (ws1 : List BitbucketWorkspace) (acc : List Repository),
      (∀ w2 ∈ ws1, ∃ items, reposForAccount w2.slug = .ok items) →
      reposForAccount w.slug = .error e →
      bitbucketCollect preferHTTPS reposForAccount (ws1 ++ w :: ws2) acc = .error e := by
  intro ws1
  induction ws1 with
  | nil =>
    intro acc _ herr
    rw [List.nil_append, bitbucketCollect, herr]
  | cons w1 rest ih =>
    intro acc hall herr
    obtain ⟨items, hok⟩ := hall w1 (by simp)
    rw [List.cons_append, bitbucketCollect, hok]
    exact ih _ (fun w2 h2 => hall w2 (List.mem_cons_of_mem w1 h2)) herr

/-- Forgejo client whose user-info call fails, for the C3 counterexample. -/
def c3Client : ForgejoClient :=
  { getMyUserInfo := .error "boom"
    searchRepos := fun _ _ => .err "unused"
    listMyRepos := fun _ => .err "unused" }

/-- C3 counterexample: in the Forgejo adapter's starred branch, an HTTP
error of the user-info call is converted into process termination
(log.Fatalf) inside the adapter instead of being propagated to the
caller, contradicting the claim's "no error is swallowed or converted
into process termination inside the adapter". -/
theorem forgejoFatal_cex :
    getForgejoRepositories c3Client "starred" false 1 =
      some (.fatal "Error fetching user info from forgejo: boom") := rfl

/-- C3 (amended): for every adapter and selector, an error of a paginated
listing HTTP call aborts the listing immediately and is propagated to the
caller with no repository result (the Forgejo adapter wrapping it with a
context message); the exception is the Forgejo starred branch's
non-paginated user-info call, whose failure terminates the process via
log.Fatalf instead of being propagated. -/
theorem listingErrorPropagation :
    (∀ (fetch : Nat → PageResult GithubRepo) (fetchStarred : Nat → PageResult GithubStar)
       (githubRepoType : String) (wl : List String) (ignoreFork preferHTTPS : Bool)
       (fuel : Nat) (ps : List Nat) (e : String),
       githubRepoType ≠ "starred" → ErrPath fetch 0 ps e → ps.length ≤ fuel →
       getGithubRepositories fetch fetchStarred githubRepoType wl ignoreFork preferHTTPS fuel
         = (ps, some (.error e))) ∧
    (∀ (fetch : Nat → PageResult GithubRepo) (fetchStarred : Nat → PageResult GithubStar)
       (wl : List String) (ignoreFork preferHTTPS : Bool) (fuel : Nat)
       (ps : List Nat) (e : String),
       ErrPath fetchStarred 0 ps e → ps.length ≤ fuel →
       getGithubRepositories fetch fetchStarred "starred" wl ignoreFork preferHTTPS fuel
         = (ps, some (.error e))) ∧
    (∀ (fetch : GitlabListOptions → Nat → PageResult GitlabProject) (vis mem : String)
       (ignoreFork preferHTTPS : Bool) (fuel : Nat) (ps : List Nat) (e : String),
       ErrPath (fetch (buildGitlabListOptions vis mem)) 0 ps e → ps.length ≤ fuel →
       getGitlabRepositories fetch vis mem ignoreFork preferHTTPS fuel
         = (ps, some (.error e))) ∧
    (∀ (client : ForgejoClient) (forgejoRepoType : String) (preferHTTPS : Bool)
       (fuel : Nat) (ps : List Nat) (e : String),
       forgejoRepoType = "user" ∨ forgejoRepoType = "" →
       FErrPath client.listMyRepos 1 ps e → ps.length ≤ fuel →
       getForgejoRepositories client forgejoRepoType preferHTTPS fuel =
         some (.done (.error ("fetching user repositories from forgejo: " ++ e)))) ∧
    (∀ (client : ForgejoClient) (u : ForgejoUser) (preferHTTPS : Bool)
       (fuel : Nat) (ps : List Nat) (e : String),
       client.getMyUserInfo = .ok u →
       FErrPath (client.searchRepos u.id) 1 ps e → ps.length ≤ fuel →
       getForgejoRepositories client "starred" preferHTTPS fuel =
         some (.done (.error ("fetching starred repositories from forgejo: " ++ e)))) ∧
    (∀ (client : BitbucketClient) (preferHTTPS : Bool) (e : String),
       client.workspacesList = .error e →
       getBitbucketRepositories client preferHTTPS = .error e) ∧
    (∀ (client : BitbucketClient) (preferHTTPS : Bool) (e : String)
       (ws1 ws2 : List BitbucketWorkspace) (w : BitbucketWorkspace),
       client.workspacesList = .ok (ws1 ++ w :: ws2) →
       (∀ w2 ∈ ws1, ∃ items, client.reposForAccount w2.slug = .ok items) →
       client.reposForAccount w.slug = .error e →
       getBitbucketRepositories client preferHTTPS = .error e) := by
  refine ⟨?_, ?_, ?_, ?_, ?_, ?_, ?_⟩
  · intro fetch fstar rt wl ifork pH fuel ps e hrt hp hlen
    rw [getGithubRepositories, if_neg hrt]
    exact paginateLoop_errPath (processGithubRepo wl ifork pH) fetch 0 ps e hp fuel [] hlen
  · intro fetch fstar wl ifork pH fuel ps e hp hlen
    rw [getGithubRepositories, if_pos rfl]
    exact paginateLoop_errPath (processGithubStarredRepo ifork pH) fstar 0 ps e hp fuel [] hlen
  · intro fetch vis mem ifork pH fuel ps e hp hlen
    exact paginateLoop_errPath (processGitlabProject ifork pH)
      (fetch (buildGitlabListOptions vis mem)) 0 ps e hp fuel [] hlen
  · intro client rt pH fuel ps e hrt hp hlen
    have hl : paginateForgejoRepositories pH client.listMyRepos fuel =
        (ps, some (.error e)) :=
      forgejoPaginate_errPath pH client.listMyRepos 1 ps e hp fuel [] hlen
    rcases hrt with rfl | rfl
    · rw [getForgejoRepositories, if_neg (by decide), if_pos (by simp), hl]
    · rw [getForgejoRepositories, if_neg (by decide), if_pos (by simp), hl]
  · intro client u pH fuel ps e hu hp hlen
    have hl : paginateForgejoRepositories pH (client.searchRepos u.id) fuel =
        (ps, some (.error e)) :=
      forgejoPaginate_errPath pH (client.searchRepos u.id) 1 ps e hp fuel [] hlen
    rw [getForgejoRepositories, if_pos rfl, hu]
    dsimp only
    rw [hl]
  · intro client pH e he
    rw [getBitbucketRepositories, he]
  · intro client pH e ws1 ws2 w hws hall herr
    rw [getBitbucketRepositories, hws]
    exact bitbucketCollect_err pH client.reposForAccount w ws2 e ws1 [] hall herr

/-- Failing GitHub starred fetch for the C3 witness. -/
def c3wStarFetch : Nat → PageResult GithubStar := fun _ => .err "rate limited"

/-- Unused non-starred fetch for the C3 witness. -/
def c3wFetch : Nat → PageResult GithubRepo := fun _ => .err "unused"

/-- Forgejo client whose repository listing fails, for the C3 witness. -/
def c3wClient : ForgejoClient :=
  { getMyUserInfo := .ok { userName := "alice", id := 9 }
    searchRepos := fun _ _ => .err "unused"
    listMyRepos := fun _ => .err "net down" }

/-- Bitbucket client whose workspace listing fails, for the C3 witness. -/
def c3wBbClient : BitbucketClient :=
  { workspacesList := .error "forbidden"
    reposForAccount := fun _ => .error "unused" }

/-- Witness for the amended C3 at concrete failing listings of three
adapters. -/
theorem listingErrorPropagation_w :
    getGithubRepositories c3wFetch c3wStarFetch "starred" [] false false 1
      = ([0], some (.error "rate limited")) ∧
    getForgejoRepositories c3wClient "user" false 1 =
      some (.done (.error "fetching user repositories from forgejo: net down")) ∧
    getBitbucketRepositories c3wBbClient false = .error "forbidden" :=
  ⟨listingErrorPropagation.2.1 c3wFetch c3wStarFetch [] false false 1 [0] "rate limited"
      (ErrPath.here 0 "rate limited" rfl) (by decide),
   (listingErrorPropagation.2.2.2.1 c3wClient "user" false 1 [1] "net down"
      (Or.inl rfl) (FErrPath.here 1 "net down" rfl) (by decide)).trans rfl,
   listingErrorPropagation.2.2.2.2.2.1 c3wBbClient false "forbidden" rfl⟩

end Gitbackup
